import Mathlib

/-!
Shallow embedding of the Quorum state-transition engine
(`src/core/state_transition.go`) and proofs about it.

Machine integers (uint64) are modelled as `Nat`; overflow is made explicit
with `% U64` where the Go code can wrap, and the explicit overflow guards of
the source are carried over verbatim.  External collaborators (the EVM
`Create`/`Call` primitives, the off-chain payload retrieval service, the
privacy-metadata handler, the gas pool) are not part of the provided sources;
they are modelled as oracle functions in an `Env` record, or from the spec
where noted.
-/

namespace Quorum

abbrev Address := Nat

abbrev Bytes := List Nat

/-- Value 2^64, the modulus of Go uint64 arithmetic. -/
def U64 : Nat := 18446744073709551616

/-- Value math.MaxUint64 = 2^64 - 1. -/
def MaxUint64 : Nat := 18446744073709551615

/-- Modelled from the spec: the `params` protocol constants used by
`IntrinsicGas` are not among the provided sources; the spec fixes the base
transaction cost at 21000 ("intrinsic gas = base transaction cost (21000 for
non-creation)") and refers to a fixed contract-creation cost, a zero-byte
rate and two non-zero-byte rates (pre/post EIP-2028): these are the standard
Ethereum protocol parameters. -/
def TxGas : Nat := 21000

/-- Modelled from the spec: fixed contract-creation base cost (see `TxGas`). -/
def TxGasContractCreation : Nat := 53000

/-- Modelled from the spec: per zero byte cost of transaction data. -/
def TxDataZeroGas : Nat := 4

/-- Modelled from the spec: per non-zero byte cost before EIP-2028. -/
def TxDataNonZeroGasFrontier : Nat := 68

/-- Modelled from the spec: cheaper per non-zero byte cost under EIP-2028. -/
def TxDataNonZeroGasEIP2028 : Nat := 16

/-- Error classification of the EVM collaborator (`vm` package errors). -/
inductive VMError where
  | insufficientBalance
  | outOfGas
  | other (code : Nat)
deriving DecidableEq, Repr

/-- Errors returned by the state-transition engine itself. -/
inductive GoError where
  | nonceTooHigh
  | nonceTooLow
  | insufficientBalanceForGas
  | gasLimitReached
  | vmError (e : VMError)
  | prepareFailure (code : Nat)
  | verifyFailure (code : Nat)
deriving DecidableEq, Repr

/-- IntrinsicGas computes the intrinsic gas for a message with the given
data (`IntrinsicGas` in src/core/state_transition.go, lines 88-122).  The
uint64 operations on the success path cannot wrap because of the two
headroom guards, so plain `Nat` arithmetic is faithful; the guards
themselves are carried over verbatim. -/
def IntrinsicGas (data : Bytes) (contractCreation isHomestead isEIP2028 : Bool) :
    Except VMError Nat :=
  let gas := if contractCreation && isHomestead then TxGasContractCreation else TxGas
  if 0 < data.length then
    let nz := (data.filter (fun byt => byt != 0)).length
    let nonZeroGas := if isEIP2028 then TxDataNonZeroGasEIP2028 else TxDataNonZeroGasFrontier
    if (MaxUint64 - gas) / nonZeroGas < nz then Except.error VMError.outOfGas
    else
      let gas2 := gas + nz * nonZeroGas
      let z := data.length - nz
      if (MaxUint64 - gas2) / TxDataZeroGas < z then Except.error VMError.outOfGas
      else Except.ok (gas2 + z * TxDataZeroGas)
  else Except.ok gas

/-- Statement of the intrinsic-gas formula in the words of the claim:
base cost (creation cost iff creating under homestead) plus the count of
non-zero bytes times the non-zero rate (EIP-2028 rate iff active) plus the
count of zero bytes times the zero rate.  This definition follows the
claim text and is compared against `IntrinsicGas`, which follows the
source. -/
def intrinsicGasSpec (data : Bytes) (contractCreation isHomestead isEIP2028 : Bool) : Nat :=
  let base := if contractCreation && isHomestead then TxGasContractCreation else TxGas
  let nz := (data.filter (fun byt => byt != 0)).length
  let z := (data.filter (fun byt => byt == 0)).length
  let nonZeroRate := if isEIP2028 then TxDataNonZeroGasEIP2028 else TxDataNonZeroGasFrontier
  base + nz * nonZeroRate + z * TxDataZeroGas

/-- World-state mutation surface used by the engine (`vm.StateDB`):
balances, nonces and the refund counter. -/
structure WorldState where
  balance : Address → Int
  nonce : Address → Nat
  refund : Nat

def WorldState.addBalance (s : WorldState) (a : Address) (amt : Int) : WorldState :=
  { s with balance := fun b => if b = a then s.balance b + amt else s.balance b }

def WorldState.subBalance (s : WorldState) (a : Address) (amt : Int) : WorldState :=
  { s with balance := fun b => if b = a then s.balance b - amt else s.balance b }

def WorldState.setNonce (s : WorldState) (a : Address) (n : Nat) : WorldState :=
  { s with nonce := fun b => if b = a then n else s.nonce b }

/-- Modelled from the spec: the GasPool type is not among the provided
sources; per the spec it is a single non-negative counter whose `sub(n)`
fails if `n` exceeds the remaining amount. -/
def GasPool.subGas (gp amount : Nat) : Except GoError Nat :=
  if gp < amount then Except.error GoError.gasLimitReached else Except.ok (gp - amount)

/-- Modelled from the spec: `add(n)` used for refunds. -/
def GasPool.addGas (gp amount : Nat) : Nat := gp + amount

/-- Message interface of the source: sender, optional recipient (absent
means contract creation), gas limit, gas price, value, nonce, nonce-check
flag and data payload.  `isPrivateImpl = some b` models a dynamic value
that implements the `PrivateMessage` interface with `IsPrivate() = b`;
`none` models one that does not. -/
structure Message where
  From : Address
  To : Option Address
  GasPrice : Nat
  Gas : Nat
  Value : Nat
  Nonce : Nat
  CheckNonce : Bool
  Data : Bytes
  isPrivateImpl : Option Bool
deriving DecidableEq, Repr

/-- Result of the `ok && isQuorum && msg.IsPrivate()` test of line 218. -/
def Message.isPrivateQuorum (msg : Message) (isQuorum : Bool) : Bool :=
  match msg.isPrivateImpl with
  | none => false
  | some b => isQuorum && b

/-- StateTransition struct fields tracked by the model (the collaborator
references are passed separately). -/
structure StateTransition where
  gas : Nat
  gasPrice : Nat
  initialGas : Nat
  value : Nat
  data : Bytes
deriving DecidableEq, Repr

/-- NewStateTransition initialises a transition object; the Go struct
zero-values `gas` and `initialGas` to 0. -/
def NewStateTransition (msg : Message) : StateTransition :=
  { gas := 0, gasPrice := msg.GasPrice, initialGas := 0, value := msg.Value, data := msg.Data }

/-- Recipient of the message as computed by `st.to()`: the zero address on
contract creation. -/
def stTo (msg : Message) : Address :=
  match msg.To with
  | none => 0
  | some a => a

/-- gasUsed returns the amount of gas used up by the state transition. -/
def gasUsed (st : StateTransition) : Nat := st.initialGas - st.gas

/-- useGas of the source: fail with the VM out-of-gas error if not enough
gas is available, else decrement. -/
def useGas (st : StateTransition) (amount : Nat) : Except GoError StateTransition :=
  if st.gas < amount then Except.error (GoError.vmError VMError.outOfGas)
  else Except.ok { st with gas := st.gas - amount }

/-- buyGas of the source: check the sender balance against
gas-limit times gas-price, reserve the limit from the gas pool, credit the
purchased gas, set `initialGas` and debit the sender. -/
def buyGas (msg : Message) (st : StateTransition) (s : WorldState) (gp : Nat) :
    Except GoError (StateTransition × WorldState × Nat) :=
  let mgval : Int := (msg.Gas * st.gasPrice : Nat)
  if s.balance msg.From < mgval then Except.error GoError.insufficientBalanceForGas
  else
    match GasPool.subGas gp msg.Gas with
    | Except.error e => Except.error e
    | Except.ok gp2 =>
        Except.ok ({ st with gas := st.gas + msg.Gas, initialGas := msg.Gas },
          s.subBalance msg.From mgval, gp2)

/-- preCheck of the source: optional nonce comparison, then buyGas. -/
def preCheck (msg : Message) (st : StateTransition) (s : WorldState) (gp : Nat) :
    Except GoError (StateTransition × WorldState × Nat) :=
  if msg.CheckNonce then
    if s.nonce msg.From < msg.Nonce then Except.error GoError.nonceTooHigh
    else if s.nonce msg.From > msg.Nonce then Except.error GoError.nonceTooLow
    else buyGas msg st s gp
  else buyGas msg st s gp

/-- refundGas of the source: refund capped at half the used gas and at the
state refund counter, credited to the remaining gas; the remaining gas is
paid back to the sender and returned to the gas pool. -/
def refundGas (msg : Message) (st : StateTransition) (s : WorldState) (gp : Nat) :
    StateTransition × WorldState × Nat :=
  let refund0 := gasUsed st / 2
  let refund := if refund0 > s.refund then s.refund else refund0
  let st2 := { st with gas := st.gas + refund }
  let remaining : Int := (st2.gas * st2.gasPrice : Nat)
  let s2 := s.addBalance msg.From remaining
  (st2, s2, GasPool.addGas gp st2.gas)

/-- Outcome of the EVM Create/Call collaborator: output bytes, leftover
gas and an optional vm error. -/
structure ExecOut where
  ret : Bytes
  leftoverGas : Nat
  vmerr : Option VMError
deriving DecidableEq, Repr

/-- Modelled from the spec: outcome of the privacy-metadata handler's
`verify(vm_error)` pass, which is not among the provided sources.  Per the
spec it signals exit-early with an explanatory error on mismatch, may
revert the state to the pre-execution snapshot, and returns continue
otherwise. -/
structure VerifyOut where
  exitEarly : Bool
  err : Option GoError
  world : WorldState
  reverted : Bool

instance exceptDecEq {ε α : Type} [DecidableEq ε] [DecidableEq α] :
    DecidableEq (Except ε α) := fun a b =>
  match a, b with
  | Except.error e1, Except.error e2 =>
      if h : e1 = e2 then isTrue (by rw [h]) else isFalse (by intro hc; cases hc; exact h rfl)
  | Except.error _, Except.ok _ => isFalse (by intro hc; cases hc)
  | Except.ok _, Except.error _ => isFalse (by intro hc; cases hc)
  | Except.ok a1, Except.ok a2 =>
      if h : a1 = a2 then isTrue (by rw [h]) else isFalse (by intro hc; cases hc; exact h rfl)

/-- Observable actions of a run of TransitionDb, recorded at the source
location of the corresponding call: the state snapshot of line 220, a
revert performed by the verify collaborator, each `SetNonce` done by
TransitionDb itself, the IntrinsicGas result computed at line 246, the vm
error reported by Create/Call, the value of (st.gas, st.initialGas) after
each write to them, each call of refundGas, and each coinbase payment. -/
inductive Event where
  | snapshot
  | revert
  | setNonce (addr : Address) (val : Nat)
  | intrinsic (res : Except VMError Nat)
  | vmResult (vmerr : Option VMError)
  | gasPoint (gas iGas : Nat)
  | refundCall
  | payCoinbase (amount : Nat)
deriving DecidableEq, Repr

/-- Identifier of the return statement of TransitionDb that produced the
result, in source order. -/
inductive RetTag where
  | preCheckErr
  | privRecvErr
  | prepareFail
  | intrinsicErr
  | useGasErr
  | privEmptyCall
  | vmInsufficient
  | verifyExit
  | normal
deriving DecidableEq, Repr

/-- Collaborators of the state transition: chain-config flags, the EVM
Create/Call primitives (which may transform the world state), the
off-chain payload retrieval service (`private.P.Receive`: either an error,
or an optional plaintext - `none` models a nil slice - plus opaque
metadata), and the privacy-metadata handler's prepare and verify oracles,
modelled from the spec since their code is not among the provided
sources. -/
structure Env where
  IsHomestead : Bool
  IsIstanbul : Bool
  IsQuorum : Bool
  IsPrivacyEnhancementsEnabled : Bool
  Coinbase : Address
  create : Address → Bytes → Nat → Nat → WorldState → ExecOut × WorldState
  call : Address → Address → Bytes → Nat → Nat → WorldState → ExecOut × WorldState
  receive : Bytes → Except Unit (Option Bytes × Nat)
  prepare : Nat → Bool → Bool × Option GoError
  verify : Option VMError → WorldState → VerifyOut

/-- Modelled from the spec: the handler's verification pass is activated
only when privacy-enhancement support is enabled at the current chain
height and the message carried a private payload. -/
def mustVerify (hasPriv : Bool) (env : Env) : Bool :=
  hasPriv && env.IsPrivacyEnhancementsEnabled

/-- Result of TransitionDb: the four Go return values (`ret` is `none`
where Go returns nil), plus the final transition object, world state, gas
pool, the recorded events and the return-path tag. -/
structure TDResult where
  ret : Option Bytes
  usedGas : Nat
  failed : Bool
  err : Option GoError
  stf : StateTransition
  world : WorldState
  gp : Nat
  events : List Event
  tag : RetTag

/-- Tail of TransitionDb from the classification of the Create/Call
outcome (line 286) to the end: promote the insufficient-balance vm error
to a consensus error, run the privacy verification when required, settle
gas (for non-private messages replace `st.gas` by the leftover gas),
refund, pay the coinbase, and report zero used gas for private
messages. -/
def afterExec (env : Env) (msg : Message) (st : StateTransition) (s : WorldState)
    (gp : Nat) (isPrivate hasPriv : Bool) (out : ExecOut) (evs : List Event) : TDResult :=
  let evs := evs ++ [Event.vmResult out.vmerr]
  if out.vmerr = some VMError.insufficientBalance then
    { ret := none, usedGas := 0, failed := false,
      err := some (GoError.vmError VMError.insufficientBalance),
      stf := st, world := s, gp := gp, events := evs, tag := RetTag.vmInsufficient }
  else
    let mv := mustVerify hasPriv env
    let v := if mv then env.verify out.vmerr s else ⟨false, none, s, false⟩
    let evs := if v.reverted then evs ++ [Event.revert] else evs
    if mv && v.exitEarly then
      { ret := none, usedGas := 0, failed := true, err := v.err,
        stf := st, world := v.world, gp := gp, events := evs, tag := RetTag.verifyExit }
    else
      let finalErr := if mv then v.err else none
      let s2 := v.world
      let st2 := if !isPrivate then { st with gas := out.leftoverGas } else st
      let evs := evs ++ [Event.gasPoint st2.gas st2.initialGas]
      let r3 := refundGas msg st2 s2 gp
      let st3 := r3.1
      let s3 := r3.2.1
      let gp3 := r3.2.2
      let evs := evs ++ [Event.refundCall, Event.gasPoint st3.gas st3.initialGas]
      let pay := gasUsed st3 * st3.gasPrice
      let s4 := s3.addBalance env.Coinbase (pay : Int)
      let evs := evs ++ [Event.payCoinbase pay]
      if isPrivate then
        { ret := some out.ret, usedGas := 0, failed := out.vmerr.isSome, err := finalErr,
          stf := st3, world := s4, gp := gp3, events := evs, tag := RetTag.normal }
      else
        { ret := some out.ret, usedGas := gasUsed st3, failed := out.vmerr.isSome,
          err := finalErr, stf := st3, world := s4, gp := gp3, events := evs,
          tag := RetTag.normal }

/-- Middle of TransitionDb from the intrinsic-gas charge (line 246) to the
Create/Call dispatch: intrinsic gas is computed over `st.data` (the
original on-chain bytes), charged with useGas; then creation dispatches to
Create, while a call first increments the nonce when not private, and a
private call with empty effective data short-circuits into refund plus
coinbase payment. -/
def execPhase (env : Env) (msg : Message) (st : StateTransition) (s : WorldState)
    (gp : Nat) (data : Bytes) (isPrivate hasPriv : Bool) (evs : List Event) : TDResult :=
  let contractCreation := msg.To.isNone
  let ig := IntrinsicGas st.data contractCreation env.IsHomestead env.IsIstanbul
  let evs := evs ++ [Event.intrinsic ig]
  match ig with
  | Except.error e =>
      { ret := none, usedGas := 0, failed := false, err := some (GoError.vmError e),
        stf := st, world := s, gp := gp, events := evs, tag := RetTag.intrinsicErr }
  | Except.ok gasCost =>
    match useGas st gasCost with
    | Except.error e =>
        { ret := none, usedGas := 0, failed := false, err := some e,
          stf := st, world := s, gp := gp, events := evs, tag := RetTag.useGasErr }
    | Except.ok st1 =>
      let evs := evs ++ [Event.gasPoint st1.gas st1.initialGas]
      if contractCreation then
        let co := env.create msg.From data st1.gas msg.Value s
        afterExec env msg st1 co.2 gp isPrivate hasPriv co.1 evs
      else
        let incNonce := (s.nonce msg.From + 1) % U64
        let s1 := if isPrivate then s else s.setNonce msg.From incNonce
        let evs := if isPrivate then evs else evs ++ [Event.setNonce msg.From incNonce]
        let toAddr := if env.IsQuorum then msg.To.getD 0 else stTo msg
        if data.length = 0 && isPrivate then
          let r3 := refundGas msg st1 s1 gp
          let st3 := r3.1
          let s3 := r3.2.1
          let gp3 := r3.2.2
          let evs := evs ++ [Event.refundCall, Event.gasPoint st3.gas st3.initialGas]
          let pay := gasUsed st3 * st3.gasPrice
          let s4 := s3.addBalance env.Coinbase (pay : Int)
          { ret := none, usedGas := 0, failed := false, err := none,
            stf := st3, world := s4, gp := gp3, events := evs ++ [Event.payCoinbase pay],
            tag := RetTag.privEmptyCall }
        else
          let co := env.call msg.From toAddr data st1.gas msg.Value s1
          afterExec env msg st1 co.2 gp isPrivate hasPriv co.1 evs

/-- TransitionDb of the source (lines 203-322): preCheck, private-message
prologue (snapshot, payload retrieval, public nonce increment, prepare),
then the shared execution phase. -/
def TransitionDb (env : Env) (msg : Message) (s0 : WorldState) (gp0 : Nat) : TDResult :=
  let st0 := NewStateTransition msg
  match preCheck msg st0 s0 gp0 with
  | Except.error e =>
      { ret := none, usedGas := 0, failed := false, err := some e,
        stf := st0, world := s0, gp := gp0, events := [], tag := RetTag.preCheckErr }
  | Except.ok x =>
    let st := x.1
    let s := x.2.1
    let gp := x.2.2
    let evs := [Event.gasPoint st.gas st.initialGas]
    let contractCreation := msg.To.isNone
    if msg.isPrivateQuorum env.IsQuorum then
      let evs := evs ++ [Event.snapshot]
      match env.receive st.data with
      | Except.error _ =>
          let incNonce := (s.nonce msg.From + 1) % U64
          let s1 := s.setNonce msg.From incNonce
          { ret := none, usedGas := 0, failed := false, err := none,
            stf := st, world := s1, gp := gp,
            events := evs ++ [Event.setNonce msg.From incNonce], tag := RetTag.privRecvErr }
      | Except.ok dm =>
          let dataOpt := dm.1
          let meta := dm.2
          let incNonce := (s.nonce msg.From + 1) % U64
          let s1 := if contractCreation then s else s.setNonce msg.From incNonce
          let evs := if contractCreation then evs
            else evs ++ [Event.setNonce msg.From incNonce]
          let hasPriv := dataOpt.isSome
          let p := env.prepare meta hasPriv
          if !p.1 then
            { ret := none, usedGas := 0, failed := true, err := p.2,
              stf := st, world := s1, gp := gp, events := evs, tag := RetTag.prepareFail }
          else
            execPhase env msg st s1 gp (dataOpt.getD []) true hasPriv evs
    else
      execPhase env msg st s gp st.data false false evs

/-- Number of SetNonce calls performed by TransitionDb itself on a given
address, read off the event trace. -/
def countSetNonce (a : Address) (evs : List Event) : Nat :=
  (evs.filter (fun e => match e with
    | Event.setNonce b _ => b == a
    | _ => false)).length

/-- Concrete world state for witnesses: every account holds 10^12 wei,
every nonce is 0, the refund counter is 0. -/
def wWorld : WorldState :=
  { balance := fun _ => 1000000000000, nonce := fun _ => 0, refund := 0 }

/-- Benign create oracle: returns empty output, zero leftover gas, no
error, and leaves the world unchanged. -/
def oCreate : Address → Bytes → Nat → Nat → WorldState → ExecOut × WorldState :=
  fun _ _ _ _ w => ({ ret := [], leftoverGas := 0, vmerr := none }, w)

/-- Benign call oracle: empty output, zero leftover, no error. -/
def oCall : Address → Address → Bytes → Nat → Nat → WorldState → ExecOut × WorldState :=
  fun _ _ _ _ _ w => ({ ret := [], leftoverGas := 0, vmerr := none }, w)

/-- Call oracle reporting a non-insufficient-balance vm error. -/
def oCallVmOther : Address → Address → Bytes → Nat → Nat → WorldState → ExecOut × WorldState :=
  fun _ _ _ _ _ w => ({ ret := [], leftoverGas := 0, vmerr := some (VMError.other 7) }, w)

/-- Retrieval oracle returning plaintext p. -/
def oReceiveSome (p : Bytes) : Bytes → Except Unit (Option Bytes × Nat) :=
  fun _ => Except.ok (some p, 0)

/-- Retrieval oracle returning nil plaintext with no error (node not a
party to the private group). -/
def oReceiveNone : Bytes → Except Unit (Option Bytes × Nat) :=
  fun _ => Except.ok (none, 0)

/-- Retrieval oracle failing. -/
def oReceiveErr : Bytes → Except Unit (Option Bytes × Nat) :=
  fun _ => Except.error ()

/-- Prepare oracle reporting well-formed metadata. -/
def oPrepOk : Nat → Bool → Bool × Option GoError := fun _ _ => (true, none)

/-- Verify oracle signalling continue with no error and no revert. -/
def oVerifyCont : Option VMError → WorldState → VerifyOut :=
  fun _ w => { exitEarly := false, err := none, world := w, reverted := false }

/-- Verify oracle signalling exit-early with an error after reverting. -/
def oVerifyExit : Option VMError → WorldState → VerifyOut :=
  fun _ w => { exitEarly := true, err := some (GoError.verifyFailure 1), world := w,
               reverted := true }

/-- Baseline environment: Quorum chain, homestead and istanbul active,
privacy enhancements off, benign collaborators. -/
def envPub : Env :=
  { IsHomestead := true, IsIstanbul := true, IsQuorum := true,
    IsPrivacyEnhancementsEnabled := false, Coinbase := 7,
    create := oCreate, call := oCall, receive := oReceiveErr,
    prepare := oPrepOk, verify := oVerifyCont }

/-- Environment whose retrieval returns plaintext [1]. -/
def envPriv1 : Env := { envPub with receive := oReceiveSome [1] }

/-- Environment whose retrieval returns plaintext [2]. -/
def envPriv2 : Env := { envPub with receive := oReceiveSome [2] }

/-- Environment whose retrieval fails. -/
def envRecvErr : Env := { envPub with receive := oReceiveErr }

/-- Environment whose retrieval returns no plaintext and no error. -/
def envRecvNone : Env := { envPub with receive := oReceiveNone }

/-- Environment for the C5 counterexample: the call reports a
non-insufficient-balance vm error, privacy enhancements are on and the
verification pass exits early with an error. -/
def envVmOtherExit : Env :=
  { envPub with
      call := oCallVmOther,
      IsPrivacyEnhancementsEnabled := true,
      verify := oVerifyExit,
      receive := oReceiveSome [1] }

/-- Environment whose call reports a non-insufficient-balance vm error,
with verification off. -/
def envVmOther : Env := { envPub with call := oCallVmOther }

/-- Public call message. -/
def msgPub : Message :=
  { From := 1, To := some 2, GasPrice := 1, Gas := 100000, Value := 0,
    Nonce := 0, CheckNonce := true, Data := [1, 2, 3], isPrivateImpl := none }

/-- Private call message (implements PrivateMessage, IsPrivate true). -/
def msgPrivCall : Message := { msgPub with isPrivateImpl := some true }

/-- Private contract-creation message. -/
def msgPrivCreate : Message := { msgPrivCall with To := none }

/-- The zero and non-zero bytes of `data` partition it. -/
theorem length_filter_split (data : Bytes) :
    (data.filter (fun byt => byt != 0)).length +
      (data.filter (fun byt => byt == 0)).length = data.length := by
  induction data with
  | nil => rfl
  | cons a l ih =>
    rw [List.filter_cons, List.filter_cons]
    by_cases h : a = 0
    · subst h
      simp
      omega
    · simp [h]
      omega

/-- Closed form of refundGas, shared by several proofs. -/
theorem refundGas_eq (msg : Message) (st : StateTransition) (s : WorldState) (gp : Nat) :
    refundGas msg st s gp =
      ({ st with gas := st.gas + min (gasUsed st / 2) s.refund },
        s.addBalance msg.From
          (((st.gas + min (gasUsed st / 2) s.refund) * st.gasPrice : Nat) : Int),
        gp + (st.gas + min (gasUsed st / 2) s.refund)) := by
  have hmin : (if gasUsed st / 2 > s.refund then s.refund else gasUsed st / 2)
      = min (gasUsed st / 2) s.refund := by
    rw [Nat.min_def]; split <;> split <;> omega
  simp only [refundGas, GasPool.addGas, hmin]

/-- C3: IntrinsicGas returns, when it does not fail, exactly
base + nz * nonZeroRate + z * zeroRate (the formula `intrinsicGasSpec`
written from the claim), where the base is the contract-creation cost iff
creating under homestead, nz and z count the non-zero and zero bytes, and
the non-zero rate is the cheaper EIP-2028 rate iff that fork is active; it
detects uint64 overflow ahead of each multiplication and in that case
returns the out-of-gas error instead of a wrapped value (the overflow case
is exactly when the unwrapped formula exceeds MaxUint64). -/
theorem C3_IntrinsicGas_formula (data : Bytes) (cc hs eip : Bool) :
    (∀ g, IntrinsicGas data cc hs eip = Except.ok g →
      g = intrinsicGasSpec data cc hs eip) ∧
    (intrinsicGasSpec data cc hs eip ≤ MaxUint64 →
      IntrinsicGas data cc hs eip = Except.ok (intrinsicGasSpec data cc hs eip)) ∧
    (MaxUint64 < intrinsicGasSpec data cc hs eip →
      IntrinsicGas data cc hs eip = Except.error VMError.outOfGas) := by
  have hsplit := length_filter_split data
  simp only [IntrinsicGas, intrinsicGasSpec,
    show TxDataZeroGas = (4 : Nat) from rfl,
    show MaxUint64 = (18446744073709551615 : Nat) from rfl]
  set nz := (data.filter (fun byt => byt != 0)).length with hnz
  set zc := (data.filter (fun byt => byt == 0)).length with hzc
  set base := (if cc && hs then TxGasContractCreation else TxGas) with hbase
  set r := (if eip then TxDataNonZeroGasEIP2028 else TxDataNonZeroGasFrontier) with hr
  have hbase_le : base ≤ 53000 := by
    rw [hbase]; split <;> decide
  have hrpos : 0 < r := by
    rw [hr]; split <;> decide
  by_cases hlen : 0 < data.length
  · simp only [if_pos hlen]
    by_cases hg1 : (18446744073709551615 - base) / r < nz
    · have hg1m : 18446744073709551615 - base < nz * r :=
        (Nat.div_lt_iff_lt_mul hrpos).mp hg1
      simp only [if_pos hg1]
      exact ⟨fun g h => Except.noConfusion h, fun hle => absurd hle (by omega), fun _ => trivial⟩
    · have hg1m : nz * r ≤ 18446744073709551615 - base :=
        (Nat.le_div_iff_mul_le hrpos).mp (Nat.not_lt.mp hg1)
      simp only [if_neg hg1]
      by_cases hg2 : (18446744073709551615 - (base + nz * r)) / 4 < data.length - nz
      · have hg2m : 18446744073709551615 - (base + nz * r) < (data.length - nz) * 4 :=
          (Nat.div_lt_iff_lt_mul (by norm_num)).mp hg2
        simp only [if_pos hg2]
        exact ⟨fun g h => Except.noConfusion h, fun hle => absurd hle (by omega), fun _ => trivial⟩
      · have hg2m : (data.length - nz) * 4 ≤ 18446744073709551615 - (base + nz * r) :=
          (Nat.le_div_iff_mul_le (by norm_num)).mp (Nat.not_lt.mp hg2)
        simp only [if_neg hg2]
        refine ⟨?_, ?_, ?_⟩
        · intro g h
          injection h with h
          omega
        · intro _
          exact congrArg Except.ok (by omega)
        · intro hlt
          exact absurd hlt (by omega)
  · simp only [if_neg hlen]
    have hnz0 : nz = 0 := by omega
    have hzc0 : zc = 0 := by omega
    rw [hnz0, hzc0]
    simp only [Nat.zero_mul, Nat.add_zero]
    refine ⟨?_, ?_, ?_⟩
    · intro g h
      injection h with h
      omega
    · intro _
      trivial
    · intro hlt
      exact absurd hlt (by omega)

/-- C3 witness: on the data [1, 0, 2] with creation, homestead and
EIP-2028 all active, the formula fits uint64 and IntrinsicGas returns
exactly it. -/
theorem C3_IntrinsicGas_formula_witness :
    intrinsicGasSpec [1, 0, 2] true true true ≤ MaxUint64 ∧
    IntrinsicGas [1, 0, 2] true true true =
      Except.ok (intrinsicGasSpec [1, 0, 2] true true true) :=
  ⟨by decide, (C3_IntrinsicGas_formula [1, 0, 2] true true true).2.1 (by decide)⟩

/-- C6: refundGas computes refund = min(gasUsed/2, state refund counter),
adds it to the remaining gas, credits the sender with gas * gasPrice
computed after the refund was added, returns that same gas amount to the
GasPool, and the refund exceeds neither half the used gas nor the refund
counter. -/
theorem C6_refundGas_spec (msg : Message) (st : StateTransition) (s : WorldState) (gp : Nat) :
    refundGas msg st s gp =
      ({ st with gas := st.gas + min (gasUsed st / 2) s.refund },
        s.addBalance msg.From
          (((st.gas + min (gasUsed st / 2) s.refund) * st.gasPrice : Nat) : Int),
        gp + (st.gas + min (gasUsed st / 2) s.refund)) ∧
    min (gasUsed st / 2) s.refund ≤ gasUsed st / 2 ∧
    min (gasUsed st / 2) s.refund ≤ s.refund :=
  ⟨refundGas_eq msg st s gp, Nat.min_le_left _ _, Nat.min_le_right _ _⟩

/-- C9: with the nonce-check flag set, preCheck fails with nonce-too-high
when the chain nonce is below the message nonce, with nonce-too-low when
above, and proceeds to buyGas exactly on equality; with the flag unset no
nonce comparison happens: preCheck is buyGas regardless of the message
nonce. -/
theorem C9_preCheck_nonce (msg : Message) (st : StateTransition) (s : WorldState) (gp : Nat) :
    (msg.CheckNonce = true →
      (s.nonce msg.From < msg.Nonce →
        preCheck msg st s gp = Except.error GoError.nonceTooHigh) ∧
      (msg.Nonce < s.nonce msg.From →
        preCheck msg st s gp = Except.error GoError.nonceTooLow) ∧
      (s.nonce msg.From = msg.Nonce → preCheck msg st s gp = buyGas msg st s gp)) ∧
    (msg.CheckNonce = false →
      ∀ n, preCheck { msg with Nonce := n } st s gp = buyGas msg st s gp) := by
  constructor
  · intro hc
    refine ⟨?_, ?_, ?_⟩ <;> intro h
    · simp only [preCheck, hc, if_true, if_pos h]
    · rw [preCheck]
      simp only [hc, if_true]
      rw [if_neg (by omega), if_pos h]
    · rw [preCheck]
      simp only [hc, if_true]
      rw [if_neg (by omega), if_neg (by omega)]
  · intro hc n
    rw [preCheck]
    simp only [hc, Bool.false_eq_true, if_false]
    rfl

/-- C9 witness: a concrete message with the flag set and matching nonce
proceeds to buyGas. -/
theorem C9_preCheck_nonce_witness :
    preCheck msgPub (NewStateTransition msgPub) wWorld 1000000 =
      buyGas msgPub (NewStateTransition msgPub) wWorld 1000000 :=
  ((C9_preCheck_nonce msgPub (NewStateTransition msgPub) wWorld 1000000).1 rfl).2.2 rfl

theorem afterExec_usedGas_private (env : Env) (msg : Message) (st : StateTransition)
    (s : WorldState) (gp : Nat) (hasPriv : Bool) (out : ExecOut) (evs : List Event) :
    (afterExec env msg st s gp true hasPriv out evs).usedGas = 0 := by
  simp only [afterExec]
  split_ifs <;> simp_all

theorem execPhase_usedGas_private (env : Env) (msg : Message) (st : StateTransition)
    (s : WorldState) (gp : Nat) (data : Bytes) (hasPriv : Bool) (evs : List Event) :
    (execPhase env msg st s gp data true hasPriv evs).usedGas = 0 := by
  simp only [execPhase]
  split
  · rfl
  · split
    · rfl
    · split_ifs <;> first
        | rfl
        | exact afterExec_usedGas_private ..

theorem afterExec_usedGas_public (env : Env) (msg : Message) (st : StateTransition)
    (s : WorldState) (gp : Nat) (out : ExecOut) (evs : List Event) :
    (afterExec env msg st s gp false false out evs).err = none →
    (afterExec env msg st s gp false false out evs).usedGas =
      gasUsed (afterExec env msg st s gp false false out evs).stf := by
  simp only [afterExec, mustVerify]
  split_ifs <;> intro h <;> simp_all

theorem execPhase_usedGas_public (env : Env) (msg : Message) (st : StateTransition)
    (s : WorldState) (gp : Nat) (data : Bytes) (evs : List Event) :
    (execPhase env msg st s gp data false false evs).err = none →
    (execPhase env msg st s gp data false false evs).usedGas =
      gasUsed (execPhase env msg st s gp data false false evs).stf := by
  simp only [execPhase]
  split
  · intro h; simp_all
  · split
    · intro h; simp_all
    · split_ifs
      all_goals intro h
      all_goals first
        | exact afterExec_usedGas_public _ _ _ _ _ _ _ h
        | simp_all

/-- C2: for every private message (PrivateMessage with IsPrivate true on a
Quorum chain) every return path of TransitionDb reports usedGas = 0; for
every non-private message the successful (nil error) path reports
usedGas = gasUsed of the final transition object, the true consumed gas
initialGas - gas. -/
theorem C2_usedGas_reporting (env : Env) (msg : Message) (s : WorldState) (gp : Nat) :
    (msg.isPrivateQuorum env.IsQuorum = true →
      (TransitionDb env msg s gp).usedGas = 0) ∧
    (msg.isPrivateQuorum env.IsQuorum = false →
      (TransitionDb env msg s gp).err = none →
      (TransitionDb env msg s gp).usedGas = gasUsed (TransitionDb env msg s gp).stf) := by
  constructor
  · intro hp
    simp only [TransitionDb]
    split
    · rfl
    · simp only [hp, if_true]
      split
      · rfl
      · split_ifs <;> first
          | rfl
          | exact execPhase_usedGas_private ..
  · intro hp
    simp only [TransitionDb]
    split
    · intro h; simp_all
    · simp only [hp, Bool.false_eq_true, if_false]
      exact execPhase_usedGas_public _ _ _ _ _ _ _

/-- C2 witness: a concrete private call reports zero used gas. -/
theorem C2_usedGas_reporting_witness :
    (TransitionDb envPriv1 msgPrivCall wWorld 1000000).usedGas = 0 :=
  (C2_usedGas_reporting envPriv1 msgPrivCall wWorld 1000000).1 rfl


/-- Fields of the transition object, world state and pool after a
successful preCheck (buyGas took effect). -/
theorem preCheck_ok_fields (msg : Message) (st : StateTransition) (s : WorldState)
    (gp : Nat) (x : StateTransition × WorldState × Nat)
    (h : preCheck msg st s gp = Except.ok x) :
    x.1 = { st with gas := st.gas + msg.Gas, initialGas := msg.Gas } ∧
    x.2.1 = s.subBalance msg.From ((msg.Gas * st.gasPrice : Nat) : Int) ∧
    x.2.2 = gp - msg.Gas ∧ msg.Gas ≤ gp := by
  simp only [preCheck, buyGas, GasPool.subGas] at h
  split_ifs at h
  all_goals simp_all
  all_goals subst h
  all_goals exact ⟨rfl, rfl, rfl⟩

/-- afterExec appends no intrinsic-gas event. -/
theorem afterExec_mem_intrinsic (env : Env) (msg : Message) (st : StateTransition)
    (s : WorldState) (gp : Nat) (ip hp : Bool) (out : ExecOut) (evs : List Event)
    (r : Except VMError Nat) :
    Event.intrinsic r ∈ (afterExec env msg st s gp ip hp out evs).events →
    Event.intrinsic r ∈ evs := by
  simp only [afterExec]
  split_ifs <;> intro h <;> simp_all

/-- The only intrinsic-gas event execPhase appends carries the
IntrinsicGas value computed over st.data. -/
theorem execPhase_mem_intrinsic (env : Env) (msg : Message) (st : StateTransition)
    (s : WorldState) (gp : Nat) (data : Bytes) (ip hp : Bool) (evs : List Event)
    (r : Except VMError Nat) :
    Event.intrinsic r ∈ (execPhase env msg st s gp data ip hp evs).events →
    Event.intrinsic r ∈ evs ∨
      r = IntrinsicGas st.data msg.To.isNone env.IsHomestead env.IsIstanbul := by
  simp only [execPhase]
  split
  · intro h; simp_all
  · split
    · intro h; simp_all
    · split_ifs
      all_goals intro h
      all_goals first
        | (have hm := afterExec_mem_intrinsic _ _ _ _ _ _ _ _ _ _ h; simp_all)
        | simp_all

/-- Every intrinsic-gas event of a TransitionDb run carries the value
computed over the original message data and the fork flags - never over a
retrieved plaintext. -/
theorem TransitionDb_mem_intrinsic (env : Env) (msg : Message) (s : WorldState) (gp : Nat)
    (r : Except VMError Nat) :
    Event.intrinsic r ∈ (TransitionDb env msg s gp).events →
    r = IntrinsicGas msg.Data msg.To.isNone env.IsHomestead env.IsIstanbul := by
  simp only [TransitionDb]
  split
  · intro h; simp_all
  · rename_i x heq
    have hfields := preCheck_ok_fields msg _ s gp x heq
    have hdata : x.1.data = msg.Data := by rw [hfields.1]; rfl
    split_ifs
    all_goals try (split
      <;> try split_ifs)
    all_goals intro h
    all_goals first
      | (have hm := execPhase_mem_intrinsic _ _ _ _ _ _ _ _ _ _ h; rw [hdata] at hm; simp_all)
      | simp_all

/-- C1: for any two runs of TransitionDb on private messages with
identical commitment bytes, creation flag and fork flags, but different
retrieved plaintexts, the computed intrinsic gas (the value recorded when
line 246 executes) is identical. -/
theorem C1_intrinsic_independent_of_plaintext
    (env1 env2 : Env) (msg1 msg2 : Message) (s1 s2 : WorldState) (gp1 gp2 : Nat)
    (p1 p2 : Bytes) (m1 m2 : Nat) (r1 r2 : Except VMError Nat)
    (hpriv1 : msg1.isPrivateQuorum env1.IsQuorum = true)
    (hpriv2 : msg2.isPrivateQuorum env2.IsQuorum = true)
    (hrecv1 : env1.receive msg1.Data = Except.ok (some p1, m1))
    (hrecv2 : env2.receive msg2.Data = Except.ok (some p2, m2))
    (hne : p1 ≠ p2)
    (hdata : msg1.Data = msg2.Data)
    (hcc : msg1.To.isNone = msg2.To.isNone)
    (hhs : env1.IsHomestead = env2.IsHomestead)
    (his : env1.IsIstanbul = env2.IsIstanbul)
    (h1 : Event.intrinsic r1 ∈ (TransitionDb env1 msg1 s1 gp1).events)
    (h2 : Event.intrinsic r2 ∈ (TransitionDb env2 msg2 s2 gp2).events) :
    r1 = r2 := by
  rw [TransitionDb_mem_intrinsic env1 msg1 s1 gp1 r1 h1,
    TransitionDb_mem_intrinsic env2 msg2 s2 gp2 r2 h2, hdata, hcc, hhs, his]

/-- C1 witness: two concrete runs retrieving plaintexts [1] and [2] both
charge intrinsic gas 21048 computed from the shared commitment bytes. -/
theorem C1_intrinsic_independent_of_plaintext_witness :
    ([1] : Bytes) ≠ [2] ∧
    Event.intrinsic (Except.ok 21048) ∈
      (TransitionDb envPriv1 msgPrivCall wWorld 1000000).events ∧
    Event.intrinsic (Except.ok 21048) ∈
      (TransitionDb envPriv2 msgPrivCall wWorld 1000000).events ∧
    (Except.ok 21048 : Except VMError Nat) = Except.ok 21048 :=
  ⟨by decide, by decide, by decide,
    C1_intrinsic_independent_of_plaintext envPriv1 envPriv2 msgPrivCall msgPrivCall
      wWorld wWorld 1000000 1000000 [1] [2] 0 0 (Except.ok 21048) (Except.ok 21048)
      rfl rfl rfl rfl (by decide) rfl rfl rfl rfl (by decide) (by decide)⟩


/-- afterExec appends no SetNonce event. -/
theorem afterExec_countSetNonce (env : Env) (msg : Message) (st : StateTransition)
    (s : WorldState) (gp : Nat) (ip hp : Bool) (out : ExecOut) (evs : List Event)
    (a : Address) :
    countSetNonce a (afterExec env msg st s gp ip hp out evs).events =
      countSetNonce a evs := by
  simp only [afterExec]
  split_ifs <;> simp [countSetNonce, List.filter_append]

/-- On the private path execPhase appends no SetNonce event (the call
branch increments the nonce only when not private). -/
theorem execPhase_countSetNonce_private (env : Env) (msg : Message) (st : StateTransition)
    (s : WorldState) (gp : Nat) (data : Bytes) (hasPriv : Bool) (evs : List Event)
    (a : Address) :
    countSetNonce a (execPhase env msg st s gp data true hasPriv evs).events =
      countSetNonce a evs := by
  simp only [execPhase]
  split
  · simp [countSetNonce, List.filter_append]
  · split
    · simp [countSetNonce, List.filter_append]
    · split_ifs
      all_goals first
        | (rw [afterExec_countSetNonce]; simp [countSetNonce, List.filter_append])
        | simp [countSetNonce, List.filter_append]

/-- C4 amended: for every private message reaching the private prologue,
if payload retrieval fails TransitionDb increments the sender's public
nonce exactly once (for calls and creations alike), stops there and
returns nil output, usedGas 0, failed = false, nil error, with no
revert-to-snapshot call; if retrieval succeeds, TransitionDb increments
the public nonce exactly once when the transaction is a call and not at
all when it is a creation (a creation's increment is left to the
Executor). -/
theorem C4_amended (env : Env) (msg : Message) (s : WorldState) (gp : Nat)
    (hp : msg.isPrivateQuorum env.IsQuorum = true)
    (hpc : (TransitionDb env msg s gp).tag ≠ RetTag.preCheckErr) :
    (env.receive msg.Data = Except.error () →
      countSetNonce msg.From (TransitionDb env msg s gp).events = 1 ∧
      (TransitionDb env msg s gp).world.nonce msg.From = (s.nonce msg.From + 1) % U64 ∧
      (TransitionDb env msg s gp).ret = none ∧
      (TransitionDb env msg s gp).usedGas = 0 ∧
      (TransitionDb env msg s gp).failed = false ∧
      (TransitionDb env msg s gp).err = none ∧
      (TransitionDb env msg s gp).tag = RetTag.privRecvErr ∧
      Event.revert ∉ (TransitionDb env msg s gp).events) ∧
    (∀ dataOpt meta, env.receive msg.Data = Except.ok (dataOpt, meta) →
      countSetNonce msg.From (TransitionDb env msg s gp).events =
        if msg.To.isSome then 1 else 0) := by
  rcases hq : preCheck msg (NewStateTransition msg) s gp with e | x
  · exfalso
    apply hpc
    simp only [TransitionDb, hq]
  · have hfields := preCheck_ok_fields msg _ s gp x hq
    have hdata : x.1.data = msg.Data := by rw [hfields.1]; rfl
    have hnonce : x.2.1.nonce = s.nonce := by rw [hfields.2.1]; rfl
    constructor
    · intro hrecv
      simp only [TransitionDb, hq, hp, if_true, hdata, hrecv]
      simp [countSetNonce, WorldState.setNonce, hnonce]
    · intro dataOpt meta hrecv
      simp only [TransitionDb, hq, hp, if_true, hdata, hrecv]
      by_cases hTo : msg.To.isSome
      · have hcc : msg.To.isNone = false := by
          rcases h2 : msg.To with _ | a
          · rw [h2] at hTo; cases hTo
          · rfl
        simp only [hcc, Bool.false_eq_true, if_false, if_pos hTo]
        split_ifs
        all_goals first
          | (rw [execPhase_countSetNonce_private]; simp [countSetNonce])
          | simp [countSetNonce]
      · have hcc : msg.To.isNone = true := by
          rcases h2 : msg.To with _ | a
          · rfl
          · rw [h2] at hTo; exact absurd rfl hTo
        simp only [hcc, if_true, if_neg hTo]
        split_ifs
        all_goals first
          | (rw [execPhase_countSetNonce_private]; simp [countSetNonce])
          | simp [countSetNonce]

/-- C4 counterexample: a private contract creation whose retrieval
succeeds with no plaintext (node not a party): the claim says the sender's
public nonce is always incremented for a creation, but TransitionDb
performs no nonce increment at all on this run (zero SetNonce events, and
the final nonce equals the initial one). -/
theorem C4_counterexample :
    msgPrivCreate.isPrivateQuorum envRecvNone.IsQuorum = true ∧
    envRecvNone.receive msgPrivCreate.Data = Except.ok (none, 0) ∧
    msgPrivCreate.To = none ∧
    countSetNonce msgPrivCreate.From
      (TransitionDb envRecvNone msgPrivCreate wWorld 1000000).events = 0 ∧
    (TransitionDb envRecvNone msgPrivCreate wWorld 1000000).world.nonce msgPrivCreate.From =
      wWorld.nonce msgPrivCreate.From := by
  refine ⟨rfl, rfl, rfl, by decide, by decide⟩

/-- C4 witness: a concrete private call with failing retrieval gets its
nonce incremented exactly once and returns a nil error. -/
theorem C4_amended_witness :
    countSetNonce msgPrivCall.From
      (TransitionDb envRecvErr msgPrivCall wWorld 1000000).events = 1 ∧
    (TransitionDb envRecvErr msgPrivCall wWorld 1000000).err = none :=
  ⟨((C4_amended envRecvErr msgPrivCall wWorld 1000000 rfl (by decide)).1 rfl).1,
   ((C4_amended envRecvErr msgPrivCall wWorld 1000000 rfl (by decide)).1 rfl).2.2.2.2.2.1⟩


/-- Classification of the Create/Call outcome by afterExec: the vm-result
event pins the Executor's error; an insufficient-balance vm error is
returned as the consensus error with no settlement; any other vm error,
when the verification pass signals continue with no error, yields a nil
error, failed = true, and settlement with coinbase payment. -/
theorem afterExec_classify (env : Env) (msg : Message) (st : StateTransition)
    (s : WorldState) (gp : Nat) (ip hp : Bool) (out : ExecOut) (evs : List Event)
    (hnoexit : ∀ ve w, (env.verify ve w).exitEarly = false)
    (hcont : ∀ ve w, (env.verify ve w).err = none)
    (hevs : ∀ ve, Event.vmResult ve ∉ evs)
    (hrf : Event.refundCall ∉ evs) :
    (∀ e, Event.vmResult (some e) ∈ (afterExec env msg st s gp ip hp out evs).events →
      out.vmerr = some e) ∧
    (out.vmerr = some VMError.insufficientBalance →
      (afterExec env msg st s gp ip hp out evs).err =
        some (GoError.vmError VMError.insufficientBalance) ∧
      (afterExec env msg st s gp ip hp out evs).failed = false ∧
      (afterExec env msg st s gp ip hp out evs).usedGas = 0 ∧
      (afterExec env msg st s gp ip hp out evs).tag = RetTag.vmInsufficient ∧
      Event.refundCall ∉ (afterExec env msg st s gp ip hp out evs).events) ∧
    (∀ e, out.vmerr = some e → e ≠ VMError.insufficientBalance →
      (afterExec env msg st s gp ip hp out evs).err = none ∧
      (afterExec env msg st s gp ip hp out evs).failed = true ∧
      (afterExec env msg st s gp ip hp out evs).tag = RetTag.normal ∧
      Event.refundCall ∈ (afterExec env msg st s gp ip hp out evs).events ∧
      ∃ a, Event.payCoinbase a ∈ (afterExec env msg st s gp ip hp out evs).events) := by
  refine ⟨?_, ?_, ?_⟩
  · intro e hmem
    simp only [afterExec] at hmem
    split_ifs at hmem <;> simp_all
  · intro hib
    simp only [afterExec]
    split_ifs <;> simp_all
  · intro e hsome hne
    simp only [afterExec]
    split_ifs <;> simp_all

/-- Membership form of `afterExec_classify`, keyed directly on the
recorded vm-result event. -/
theorem afterExec_classify_pair (env : Env) (msg : Message) (st : StateTransition)
    (s : WorldState) (gp : Nat) (ip hp : Bool) (out : ExecOut) (evs : List Event)
    (hnoexit : ∀ ve w, (env.verify ve w).exitEarly = false)
    (hcont : ∀ ve w, (env.verify ve w).err = none)
    (hevs : ∀ ve, Event.vmResult ve ∉ evs)
    (hrf : Event.refundCall ∉ evs) :
    (∀ e, Event.vmResult (some e) ∈ (afterExec env msg st s gp ip hp out evs).events →
      e ≠ VMError.insufficientBalance →
      (afterExec env msg st s gp ip hp out evs).err = none ∧
      (afterExec env msg st s gp ip hp out evs).failed = true ∧
      (afterExec env msg st s gp ip hp out evs).tag = RetTag.normal ∧
      Event.refundCall ∈ (afterExec env msg st s gp ip hp out evs).events ∧
      ∃ a, Event.payCoinbase a ∈ (afterExec env msg st s gp ip hp out evs).events) ∧
    (Event.vmResult (some VMError.insufficientBalance) ∈
        (afterExec env msg st s gp ip hp out evs).events →
      (afterExec env msg st s gp ip hp out evs).err =
        some (GoError.vmError VMError.insufficientBalance) ∧
      (afterExec env msg st s gp ip hp out evs).failed = false ∧
      (afterExec env msg st s gp ip hp out evs).usedGas = 0 ∧
      (afterExec env msg st s gp ip hp out evs).tag = RetTag.vmInsufficient ∧
      Event.refundCall ∉ (afterExec env msg st s gp ip hp out evs).events) := by
  have hcl := afterExec_classify env msg st s gp ip hp out evs hnoexit hcont hevs hrf
  exact ⟨fun e hmem hne => hcl.2.2 e (hcl.1 e hmem) hne,
    fun hmem => hcl.2.1 (hcl.1 VMError.insufficientBalance hmem)⟩

/-- Lift of the vm-error classification through execPhase. -/
theorem execPhase_classify (env : Env) (msg : Message) (st : StateTransition)
    (s : WorldState) (gp : Nat) (data : Bytes) (ip hp : Bool) (evs : List Event)
    (hnoexit : ∀ ve w, (env.verify ve w).exitEarly = false)
    (hcont : ∀ ve w, (env.verify ve w).err = none)
    (hevs : ∀ ve, Event.vmResult ve ∉ evs)
    (hrf : Event.refundCall ∉ evs) :
    (∀ e, Event.vmResult (some e) ∈ (execPhase env msg st s gp data ip hp evs).events →
      e ≠ VMError.insufficientBalance →
      (execPhase env msg st s gp data ip hp evs).err = none ∧
      (execPhase env msg st s gp data ip hp evs).failed = true ∧
      (execPhase env msg st s gp data ip hp evs).tag = RetTag.normal ∧
      Event.refundCall ∈ (execPhase env msg st s gp data ip hp evs).events ∧
      ∃ a, Event.payCoinbase a ∈ (execPhase env msg st s gp data ip hp evs).events) ∧
    (Event.vmResult (some VMError.insufficientBalance) ∈
        (execPhase env msg st s gp data ip hp evs).events →
      (execPhase env msg st s gp data ip hp evs).err =
        some (GoError.vmError VMError.insufficientBalance) ∧
      (execPhase env msg st s gp data ip hp evs).failed = false ∧
      (execPhase env msg st s gp data ip hp evs).usedGas = 0 ∧
      (execPhase env msg st s gp data ip hp evs).tag = RetTag.vmInsufficient ∧
      Event.refundCall ∉ (execPhase env msg st s gp data ip hp evs).events) := by
  simp only [execPhase]
  split
  · refine ⟨fun e hmem hne => absurd hmem ?_, fun hmem => absurd hmem ?_⟩
    all_goals simp [hevs]
  · split
    · refine ⟨fun e hmem hne => absurd hmem ?_, fun hmem => absurd hmem ?_⟩
      all_goals simp [hevs]
    · split_ifs
      all_goals first
        | (exact afterExec_classify_pair env msg _ _ gp _ _ _ _ hnoexit hcont
            (by intro ve; simp [hevs]) (by simp [hrf]))
        | (refine ⟨fun e hmem hne => absurd hmem ?_, fun hmem => absurd hmem ?_⟩
           all_goals simp [hevs])

/-- C5 amended: provided the privacy verification pass never signals
exit-early and reports no error on continue (vacuously so for any message
the pass does not apply to, e.g. every non-private message), TransitionDb
classifies the Executor's outcome as the claim states: a vm error equal to
the insufficient-balance error is returned as the consensus error (non-nil
err, failed = false, usedGas 0, aborting before settlement), while every
other vm error is absorbed as a non-consensus failure (nil err,
failed = true, and gas settlement plus coinbase payment take place).  When
the verification pass exits early instead, TransitionDb returns the
verification error without settlement (see the counterexample). -/
theorem C5_amended (env : Env) (msg : Message) (s : WorldState) (gp : Nat)
    (hnoexit : ∀ ve w, (env.verify ve w).exitEarly = false)
    (hcont : ∀ ve w, (env.verify ve w).err = none) :
    (∀ e, Event.vmResult (some e) ∈ (TransitionDb env msg s gp).events →
      e ≠ VMError.insufficientBalance →
      (TransitionDb env msg s gp).err = none ∧
      (TransitionDb env msg s gp).failed = true ∧
      (TransitionDb env msg s gp).tag = RetTag.normal ∧
      Event.refundCall ∈ (TransitionDb env msg s gp).events ∧
      ∃ a, Event.payCoinbase a ∈ (TransitionDb env msg s gp).events) ∧
    (Event.vmResult (some VMError.insufficientBalance) ∈ (TransitionDb env msg s gp).events →
      (TransitionDb env msg s gp).err = some (GoError.vmError VMError.insufficientBalance) ∧
      (TransitionDb env msg s gp).failed = false ∧
      (TransitionDb env msg s gp).usedGas = 0 ∧
      (TransitionDb env msg s gp).tag = RetTag.vmInsufficient ∧
      Event.refundCall ∉ (TransitionDb env msg s gp).events) := by
  rcases hq : preCheck msg (NewStateTransition msg) s gp with e | x
  · simp only [TransitionDb, hq]
    refine ⟨fun e hmem hne => absurd hmem ?_, fun hmem => absurd hmem ?_⟩
    all_goals simp
  · by_cases hp : msg.isPrivateQuorum env.IsQuorum = true
    · simp only [TransitionDb, hq, hp, if_true]
      rcases hr : env.receive x.1.data with u | dm
      · simp only [hr]
        refine ⟨fun e hmem hne => absurd hmem ?_, fun hmem => absurd hmem ?_⟩
        all_goals simp
      · simp only [hr]
        split_ifs
        all_goals first
          | (exact execPhase_classify env msg _ _ _ _ _ _ _ hnoexit hcont
              (by intro ve; simp) (by simp))
          | (refine ⟨fun e hmem hne => absurd hmem ?_, fun hmem => absurd hmem ?_⟩
             all_goals simp)
    · have hp2 : msg.isPrivateQuorum env.IsQuorum = false := by
        cases hb : msg.isPrivateQuorum env.IsQuorum
        · rfl
        · exact absurd hb hp
      simp only [TransitionDb, hq, hp2, Bool.false_eq_true, if_false]
      exact execPhase_classify env msg x.1 x.2.1 x.2.2 x.1.data false false
        [Event.gasPoint x.1.gas x.1.initialGas] hnoexit hcont
        (by intro ve h; rw [List.mem_singleton] at h; exact Event.noConfusion h)
        (by intro h; rw [List.mem_singleton] at h; exact Event.noConfusion h)

/-- C5 counterexample: a private run whose call reports the vm error
`other 7` (not insufficient balance) with privacy enhancements on and a
failing verification pass: TransitionDb returns the non-nil verification
error and performs neither refund nor coinbase payment, contradicting the
claim that every other VM error is absorbed with nil err and settlement. -/
theorem C5_counterexample :
    Event.vmResult (some (VMError.other 7)) ∈
      (TransitionDb envVmOtherExit msgPrivCall wWorld 1000000).events ∧
    VMError.other 7 ≠ VMError.insufficientBalance ∧
    (TransitionDb envVmOtherExit msgPrivCall wWorld 1000000).err =
      some (GoError.verifyFailure 1) ∧
    (TransitionDb envVmOtherExit msgPrivCall wWorld 1000000).tag = RetTag.verifyExit ∧
    Event.refundCall ∉ (TransitionDb envVmOtherExit msgPrivCall wWorld 1000000).events ∧
    ((TransitionDb envVmOtherExit msgPrivCall wWorld 1000000).events.filter
      (fun e => match e with
        | Event.payCoinbase _ => true
        | _ => false)) = [] := by
  refine ⟨by decide, by decide, by decide, by decide, by decide, by decide⟩

/-- C5 witness: a concrete public call reporting vm error `other 7` is
absorbed: nil error, failed, settlement performed. -/
theorem C5_amended_witness :
    (TransitionDb envVmOther msgPub wWorld 1000000).err = none ∧
    (TransitionDb envVmOther msgPub wWorld 1000000).failed = true ∧
    Event.refundCall ∈ (TransitionDb envVmOther msgPub wWorld 1000000).events :=
  have h := (C5_amended envVmOther msgPub wWorld 1000000
    (fun _ _ => rfl) (fun _ _ => rfl)).1 (VMError.other 7) (by decide) (by decide)
  ⟨h.1, h.2.1, h.2.2.2.1⟩


/-- A successful useGas decrements the gas by a pre-checked amount. -/
theorem useGas_ok (st : StateTransition) (a : Nat) (st2 : StateTransition)
    (h : useGas st a = Except.ok st2) :
    st2 = { st with gas := st.gas - a } ∧ a ≤ st.gas := by
  simp only [useGas] at h
  split_ifs at h with hlt
  all_goals first
    | exact Except.noConfusion h
    | (injection h with h
       exact ⟨h.symm, by omega⟩)

set_option maxHeartbeats 2000000 in
/-- afterExec preserves the invariant gas at most initialGas, assuming
the Executor's leftover gas is bounded by the gas it was given. -/
theorem afterExec_stf_gas (env : Env) (msg : Message) (st : StateTransition)
    (s : WorldState) (gp : Nat) (ip hp : Bool) (out : ExecOut) (evs : List Event)
    (hst : st.gas ≤ st.initialGas)
    (hleft : out.leftoverGas ≤ st.gas) :
    (afterExec env msg st s gp ip hp out evs).stf.gas ≤
      (afterExec env msg st s gp ip hp out evs).stf.initialGas := by
  simp only [afterExec, refundGas_eq, gasUsed]
  split_ifs
  all_goals first
    | omega
    | (simp; omega)
    | simp

set_option maxHeartbeats 2000000 in
/-- Every gas point recorded by afterExec satisfies gas at most
initialGas. -/
theorem afterExec_events_gasPoints (env : Env) (msg : Message) (st : StateTransition)
    (s : WorldState) (gp : Nat) (ip hp : Bool) (out : ExecOut) (evs : List Event)
    (hpre : ∀ g i, Event.gasPoint g i ∈ evs → g ≤ i)
    (hst : st.gas ≤ st.initialGas)
    (hleft : out.leftoverGas ≤ st.gas) :
    ∀ g i, Event.gasPoint g i ∈ (afterExec env msg st s gp ip hp out evs).events → g ≤ i := by
  intro g i
  simp only [afterExec, refundGas_eq, gasUsed]
  split_ifs
  all_goals intro hmem
  all_goals simp only [List.mem_append, List.mem_cons, List.mem_singleton,
    List.not_mem_nil, or_false] at hmem
  all_goals cases_type* Or
  all_goals first
    | exact hpre g i (by assumption)
    | simp_all
  all_goals omega

/-- Bound on gas points of an appended trace. -/
theorem gasPoints_append (evs l : List Event)
    (h1 : ∀ g i, Event.gasPoint g i ∈ evs → g ≤ i)
    (h2 : ∀ g i, Event.gasPoint g i ∈ l → g ≤ i) :
    ∀ g i, Event.gasPoint g i ∈ evs ++ l → g ≤ i := by
  intro g i hm
  rcases List.mem_append.mp hm with h | h
  · exact h1 g i h
  · exact h2 g i h

/-- Bound extension across the intrinsic-gas and gas-point events that
execPhase appends. -/
theorem gasPoints_extend (evs : List Event) (r : Except VMError Nat) (a b : Nat)
    (hpre : ∀ g i, Event.gasPoint g i ∈ evs → g ≤ i) (hab : a ≤ b) :
    ∀ g i, Event.gasPoint g i ∈ evs ++ [Event.intrinsic r] ++ [Event.gasPoint a b] →
      g ≤ i := by
  intro g i hm
  simp only [List.mem_append, List.mem_singleton] at hm
  rcases hm with (hm | hm) | hm
  · exact hpre g i hm
  · exact absurd hm (by simp)
  · injection hm with h1 h2
    subst h1
    subst h2
    exact hab

/-- A SetNonce event is not a gas point. -/
theorem gasPoints_single_setNonce (c d : Nat) :
    ∀ g i, Event.gasPoint g i ∈ [Event.setNonce c d] → g ≤ i := by
  intro g i hm
  rw [List.mem_singleton] at hm
  exact Event.noConfusion hm

set_option maxHeartbeats 1000000 in
/-- execPhase preserves the invariant gas at most initialGas. -/
theorem execPhase_stf_gas (env : Env) (msg : Message) (st : StateTransition)
    (s : WorldState) (gp : Nat) (data : Bytes) (ip hp : Bool) (evs : List Event)
    (hcall : ∀ a t d g v w, ((env.call a t d g v w).1).leftoverGas ≤ g)
    (hcreate : ∀ a d g v w, ((env.create a d g v w).1).leftoverGas ≤ g)
    (hst : st.gas ≤ st.initialGas) :
    (execPhase env msg st s gp data ip hp evs).stf.gas ≤
      (execPhase env msg st s gp data ip hp evs).stf.initialGas := by
  simp only [execPhase]
  split
  · exact hst
  · split
    · exact hst
    · rename_i st1 heq
      obtain ⟨hster, hle⟩ := useGas_ok _ _ _ heq
      subst hster
      split_ifs
      all_goals first
        | (simp [refundGas_eq, gasUsed] <;> omega)
        | exact afterExec_stf_gas _ _ _ _ _ _ _ _ _
            (le_trans (Nat.sub_le _ _) hst) (hcreate _ _ _ _ _)
        | exact afterExec_stf_gas _ _ _ _ _ _ _ _ _
            (le_trans (Nat.sub_le _ _) hst) (hcall _ _ _ _ _ _)

set_option maxHeartbeats 2000000 in
/-- Every gas point recorded by execPhase satisfies gas at most
initialGas. -/
theorem execPhase_events_gasPoints (env : Env) (msg : Message) (st : StateTransition)
    (s : WorldState) (gp : Nat) (data : Bytes) (ip hp : Bool) (evs : List Event)
    (hcall : ∀ a t d g v w, ((env.call a t d g v w).1).leftoverGas ≤ g)
    (hcreate : ∀ a d g v w, ((env.create a d g v w).1).leftoverGas ≤ g)
    (hpre : ∀ g i, Event.gasPoint g i ∈ evs → g ≤ i)
    (hst : st.gas ≤ st.initialGas) :
    ∀ g i, Event.gasPoint g i ∈ (execPhase env msg st s gp data ip hp evs).events → g ≤ i := by
  intro g i
  simp only [execPhase]
  split
  · intro hmem
    simp only [List.mem_append, List.mem_singleton] at hmem
    rcases hmem with h | h
    · exact hpre g i h
    · exact absurd h (by simp)
  · split
    · intro hmem
      simp only [List.mem_append, List.mem_singleton] at hmem
      rcases hmem with h | h
      · exact hpre g i h
      · exact absurd h (by simp)
    · rename_i st1 heq
      obtain ⟨hster, hle⟩ := useGas_ok _ _ _ heq
      subst hster
      split_ifs
      all_goals intro hmem
      all_goals first
        | (simp only [refundGas_eq, gasUsed] at hmem
           simp only [List.mem_append, List.mem_cons, List.mem_singleton, List.not_mem_nil,
             or_false] at hmem
           cases_type* Or
           all_goals first
             | exact hpre g i (by assumption)
             | simp_all
           all_goals omega)
        | (refine afterExec_events_gasPoints _ _ _ _ _ _ _ _ _ ?_ ?_ ?_ g i hmem
           all_goals first
             | exact le_trans (Nat.sub_le _ _) hst
             | exact hcreate _ _ _ _ _
             | exact hcall _ _ _ _ _ _
             | exact gasPoints_extend _ _ _ _ hpre (le_trans (Nat.sub_le _ _) hst)
             | exact gasPoints_append _ _
                 (gasPoints_extend _ _ _ _ hpre (le_trans (Nat.sub_le _ _) hst))
                 (gasPoints_single_setNonce _ _))

/-- A snapshot event is not a gas point. -/
theorem gasPoints_single_snapshot :
    ∀ g i, Event.gasPoint g i ∈ [Event.snapshot] → g ≤ i := by
  intro g i hm
  rw [List.mem_singleton] at hm
  exact Event.noConfusion hm

set_option maxHeartbeats 2000000 in
/-- C7: under the collaborator assumption that the Executor returns
leftover gas no larger than the gas it was given, every recorded value of
st.gas after buyGas has set initialGas satisfies gas at most initialGas
(so the uint64 subtraction initialGas - gas never underflows), the final
transition object satisfies the same bound, and gasUsed always equals
initialGas - gas. -/
theorem C7_gasUsed_invariant (env : Env) (msg : Message) (s : WorldState) (gp : Nat)
    (hcall : ∀ a t d g v w, ((env.call a t d g v w).1).leftoverGas ≤ g)
    (hcreate : ∀ a d g v w, ((env.create a d g v w).1).leftoverGas ≤ g) :
    (∀ g i, Event.gasPoint g i ∈ (TransitionDb env msg s gp).events → g ≤ i) ∧
    (TransitionDb env msg s gp).stf.gas ≤ (TransitionDb env msg s gp).stf.initialGas ∧
    gasUsed (TransitionDb env msg s gp).stf =
      (TransitionDb env msg s gp).stf.initialGas - (TransitionDb env msg s gp).stf.gas := by
  refine ⟨?_, ?_, rfl⟩
  · intro g i
    rcases hq : preCheck msg (NewStateTransition msg) s gp with e | x
    · simp only [TransitionDb, hq]
      intro hmem
      simp at hmem
    · have hfields := preCheck_ok_fields msg _ s gp x hq
      have hst : x.1.gas ≤ x.1.initialGas := by rw [hfields.1]; simp [NewStateTransition]
      have hpre0 : ∀ g2 i2,
          Event.gasPoint g2 i2 ∈ [Event.gasPoint x.1.gas x.1.initialGas] → g2 ≤ i2 := by
        intro g2 i2 hm
        rw [List.mem_singleton] at hm
        injection hm with h1 h2
        subst h1
        subst h2
        exact hst
      by_cases hp : msg.isPrivateQuorum env.IsQuorum = true
      · simp only [TransitionDb, hq, hp, if_true]
        rcases hr : env.receive x.1.data with u | dm
        · simp only [hr]
          intro hmem
          simp only [List.mem_append, List.mem_cons, List.mem_singleton, List.not_mem_nil,
            or_false] at hmem
          cases_type* Or
          all_goals simp_all
        · simp only [hr]
          split_ifs
          all_goals intro hmem
          all_goals first
            | (refine execPhase_events_gasPoints _ _ _ _ _ _ _ _ _ hcall hcreate ?_ ?_ g i hmem
               all_goals first
                 | exact hst
                 | exact gasPoints_append _ _ hpre0 gasPoints_single_snapshot
                 | exact gasPoints_append _ _
                     (gasPoints_append _ _ hpre0 gasPoints_single_snapshot)
                     (gasPoints_single_setNonce _ _))
            | (simp only [List.mem_append, List.mem_cons, List.mem_singleton, List.not_mem_nil,
                 or_false] at hmem
               cases_type* Or
               all_goals simp_all)
      · have hp2 : msg.isPrivateQuorum env.IsQuorum = false := by
          cases hb : msg.isPrivateQuorum env.IsQuorum
          · rfl
          · exact absurd hb hp
        simp only [TransitionDb, hq, hp2, Bool.false_eq_true, if_false]
        intro hmem
        exact execPhase_events_gasPoints _ _ _ _ _ _ _ _ _ hcall hcreate hpre0 hst g i hmem
  · rcases hq : preCheck msg (NewStateTransition msg) s gp with e | x
    · simp only [TransitionDb, hq]
      exact Nat.le_refl _
    · have hfields := preCheck_ok_fields msg _ s gp x hq
      have hst : x.1.gas ≤ x.1.initialGas := by rw [hfields.1]; simp [NewStateTransition]
      by_cases hp : msg.isPrivateQuorum env.IsQuorum = true
      · simp only [TransitionDb, hq, hp, if_true]
        rcases hr : env.receive x.1.data with u | dm
        · simp only [hr]
          exact hst
        · simp only [hr]
          split_ifs
          all_goals first
            | exact hst
            | exact execPhase_stf_gas _ _ _ _ _ _ _ _ _ hcall hcreate hst
      · have hp2 : msg.isPrivateQuorum env.IsQuorum = false := by
          cases hb : msg.isPrivateQuorum env.IsQuorum
          · rfl
          · exact absurd hb hp
        simp only [TransitionDb, hq, hp2, Bool.false_eq_true, if_false]
        exact execPhase_stf_gas _ _ _ _ _ _ _ _ _ hcall hcreate hst

/-- C7 witness: a concrete public run keeps gas at most initialGas. -/
theorem C7_gasUsed_invariant_witness :
    (TransitionDb envPub msgPub wWorld 1000000).stf.gas ≤
      (TransitionDb envPub msgPub wWorld 1000000).stf.initialGas ∧
    gasUsed (TransitionDb envPub msgPub wWorld 1000000).stf =
      (TransitionDb envPub msgPub wWorld 1000000).stf.initialGas -
        (TransitionDb envPub msgPub wWorld 1000000).stf.gas :=
  have h := C7_gasUsed_invariant envPub msgPub wWorld 1000000
    (fun _ _ _ _ _ _ => Nat.zero_le _) (fun _ _ _ _ _ => Nat.zero_le _)
  ⟨h.2.1, h.2.2⟩


set_option maxHeartbeats 1000000 in
/-- C8: for a private call whose retrieval returned no error but whose
effective execution data is empty, TransitionDb short-circuits after the
intrinsic-gas charge: it runs refundGas, pays the block proposer exactly
gasUsed() times gasPrice - which at that point (entry refund counter 0)
equals the intrinsic gas times the gas price, not zero - and returns nil
output, usedGas 0, failed = false, nil error, without invoking the
Executor (no vm-result event). -/
theorem C8_private_empty_call (env : Env) (msg : Message) (s : WorldState) (gp : Nat)
    (dataOpt : Option Bytes) (meta g : Nat)
    (hp : msg.isPrivateQuorum env.IsQuorum = true)
    (hTo : msg.To.isSome = true)
    (hrecv : env.receive msg.Data = Except.ok (dataOpt, meta))
    (hempty : (dataOpt.getD []).length = 0)
    (hprep : (env.prepare meta dataOpt.isSome).1 = true)
    (hig : IntrinsicGas msg.Data msg.To.isNone env.IsHomestead env.IsIstanbul = Except.ok g)
    (hgle : g ≤ msg.Gas)
    (hrefund : s.refund = 0)
    (hpc : (TransitionDb env msg s gp).tag ≠ RetTag.preCheckErr) :
    (TransitionDb env msg s gp).tag = RetTag.privEmptyCall ∧
    (TransitionDb env msg s gp).ret = none ∧
    (TransitionDb env msg s gp).usedGas = 0 ∧
    (TransitionDb env msg s gp).failed = false ∧
    (TransitionDb env msg s gp).err = none ∧
    Event.refundCall ∈ (TransitionDb env msg s gp).events ∧
    Event.payCoinbase (g * msg.GasPrice) ∈ (TransitionDb env msg s gp).events ∧
    (∀ ve, Event.vmResult ve ∉ (TransitionDb env msg s gp).events) := by
  rcases hq : preCheck msg (NewStateTransition msg) s gp with e | x
  · exfalso
    apply hpc
    simp only [TransitionDb, hq]
  · obtain ⟨st1, s1, gp1⟩ := x
    obtain ⟨h1, h2, h3, h4⟩ := preCheck_ok_fields msg _ s gp (st1, s1, gp1) hq
    simp only at h1 h2 h3
    subst h1
    subst h2
    subst h3
    have hcc : msg.To.isNone = false := by
      rcases h5 : msg.To with _ | a
      · rw [h5] at hTo; cases hTo
      · rfl
    simp only [TransitionDb, hq, hp, if_true]
    simp only [NewStateTransition, Nat.zero_add]
    have hig2 : IntrinsicGas msg.Data false env.IsHomestead env.IsIstanbul = Except.ok g := by
      rw [← hcc]
      exact hig
    simp only [hrecv, hcc, Bool.false_eq_true, if_false, hprep, Bool.not_true, execPhase, hig2]
    have huse : useGas
        { gas := msg.Gas, gasPrice := msg.GasPrice, initialGas := msg.Gas, value := msg.Value, data := msg.Data } g =
        Except.ok
          { gas := msg.Gas - g, gasPrice := msg.GasPrice, initialGas := msg.Gas, value := msg.Value, data := msg.Data } := by
      simp only [useGas]
      rw [if_neg (by omega)]
    rw [huse]
    simp only [hempty, refundGas_eq, gasUsed, WorldState.subBalance, WorldState.setNonce,
      hrefund, Nat.add_zero, Nat.sub_sub_self hgle, Nat.min_zero]
    refine ⟨?_, ?_, ?_, ?_, ?_, ?_, ?_, ?_⟩ <;> simp
    omega

/-- C8 witness: a concrete private call with no retrieved plaintext pays
the proposer intrinsic gas 21048 times the gas price. -/
theorem C8_private_empty_call_witness :
    (TransitionDb envRecvNone msgPrivCall wWorld 1000000).tag = RetTag.privEmptyCall ∧
    Event.payCoinbase (21048 * msgPrivCall.GasPrice) ∈
      (TransitionDb envRecvNone msgPrivCall wWorld 1000000).events :=
  have h := C8_private_empty_call envRecvNone msgPrivCall wWorld 1000000 none 0 21048
    rfl rfl rfl rfl rfl (by decide) (by decide) rfl (by decide)
  ⟨h.1, h.2.2.2.2.2.2.1⟩


set_option maxHeartbeats 1000000 in
/-- Frame facts of afterExec on the insufficient-balance return: no
refund event is appended, the world, gas pool and zero used gas are
passed through, and the Executor indeed reported insufficient balance
(assuming no refund event was recorded before). -/
theorem afterExec_frame (env : Env) (msg : Message) (st : StateTransition)
    (s : WorldState) (gp : Nat) (ip hp : Bool) (out : ExecOut) (evs : List Event)
    (hrf : Event.refundCall ∉ evs) :
    ((afterExec env msg st s gp ip hp out evs).tag = RetTag.privRecvErr ∨
     (afterExec env msg st s gp ip hp out evs).tag = RetTag.prepareFail ∨
     (afterExec env msg st s gp ip hp out evs).tag = RetTag.intrinsicErr ∨
     (afterExec env msg st s gp ip hp out evs).tag = RetTag.useGasErr ∨
     (afterExec env msg st s gp ip hp out evs).tag = RetTag.vmInsufficient) →
    Event.refundCall ∉ (afterExec env msg st s gp ip hp out evs).events ∧
    (afterExec env msg st s gp ip hp out evs).world = s ∧
    (afterExec env msg st s gp ip hp out evs).gp = gp ∧
    (afterExec env msg st s gp ip hp out evs).usedGas = 0 ∧
    out.vmerr = some VMError.insufficientBalance := by
  simp only [afterExec]
  split_ifs
  all_goals intro h
  all_goals first
    | (refine ⟨?_, rfl, rfl, rfl, by assumption⟩
       simp [hrf])
    | simp_all

set_option maxHeartbeats 1000000 in
/-- Frame facts of execPhase on its early-return paths (intrinsic
out-of-gas, useGas failure, vm insufficient balance): no refund event,
the sender balance, gas pool and zero used gas pass through, assuming
Create/Call leave the state unchanged when reporting insufficient
balance. -/
theorem execPhase_frame (env : Env) (msg : Message) (st : StateTransition)
    (s : WorldState) (gp : Nat) (data : Bytes) (ip hp : Bool) (evs : List Event)
    (hcall : ∀ a t d g v w, ((env.call a t d g v w).1).vmerr = some VMError.insufficientBalance →
      (env.call a t d g v w).2 = w)
    (hcreate : ∀ a d g v w, ((env.create a d g v w).1).vmerr = some VMError.insufficientBalance →
      (env.create a d g v w).2 = w)
    (hrf : Event.refundCall ∉ evs) :
    ((execPhase env msg st s gp data ip hp evs).tag = RetTag.privRecvErr ∨
     (execPhase env msg st s gp data ip hp evs).tag = RetTag.prepareFail ∨
     (execPhase env msg st s gp data ip hp evs).tag = RetTag.intrinsicErr ∨
     (execPhase env msg st s gp data ip hp evs).tag = RetTag.useGasErr ∨
     (execPhase env msg st s gp data ip hp evs).tag = RetTag.vmInsufficient) →
    Event.refundCall ∉ (execPhase env msg st s gp data ip hp evs).events ∧
    (execPhase env msg st s gp data ip hp evs).world.balance msg.From =
      s.balance msg.From ∧
    (execPhase env msg st s gp data ip hp evs).gp = gp ∧
    (execPhase env msg st s gp data ip hp evs).usedGas = 0 := by
  simp only [execPhase]
  split
  · intro h
    refine ⟨by simp [hrf], rfl, rfl, rfl⟩
  · split
    · intro h
      refine ⟨by simp [hrf], rfl, rfl, rfl⟩
    · split_ifs
      all_goals intro h
      all_goals first
        | (obtain ⟨ha, hb, hc, hd, he⟩ := afterExec_frame _ _ _ _ _ _ _ _ _
             (by simp [hrf]) h
           refine ⟨ha, ?_, hc, hd⟩
           rw [hb, hcreate _ _ _ _ _ he])
        | (obtain ⟨ha, hb, hc, hd, he⟩ := afterExec_frame _ _ _ _ _ _ _ _ _
             (by simp [hrf]) h
           refine ⟨ha, ?_, hc, hd⟩
           rw [hb, hcall _ _ _ _ _ _ he]
           simp [WorldState.setNonce])
        | (obtain ⟨ha, hb, hc, hd, he⟩ := afterExec_frame _ _ _ _ _ _ _ _ _
             (by simp [hrf]) h
           refine ⟨ha, ?_, hc, hd⟩
           rw [hb, hcall _ _ _ _ _ _ he])
        | simp_all

set_option maxHeartbeats 1000000 in
/-- C10: on every early-return path of TransitionDb reached after buyGas
succeeded but before settlement - the private retrieval-error return, the
prepare failure return, the intrinsic out-of-gas and useGas failure
returns, and the vm insufficient-balance return - refundGas is never
called, the sender's balance stays debited by the full
gasLimit times gasPrice, the gas pool stays reduced by the full gasLimit,
and usedGas is reported as 0; the Executor is assumed to leave the state
unchanged when it reports insufficient balance. -/
theorem C10_early_paths_frame (env : Env) (msg : Message) (s : WorldState) (gp : Nat)
    (hcall : ∀ a t d g v w, ((env.call a t d g v w).1).vmerr = some VMError.insufficientBalance →
      (env.call a t d g v w).2 = w)
    (hcreate : ∀ a d g v w, ((env.create a d g v w).1).vmerr = some VMError.insufficientBalance →
      (env.create a d g v w).2 = w) :
    ((TransitionDb env msg s gp).tag = RetTag.privRecvErr ∨
     (TransitionDb env msg s gp).tag = RetTag.prepareFail ∨
     (TransitionDb env msg s gp).tag = RetTag.intrinsicErr ∨
     (TransitionDb env msg s gp).tag = RetTag.useGasErr ∨
     (TransitionDb env msg s gp).tag = RetTag.vmInsufficient) →
    Event.refundCall ∉ (TransitionDb env msg s gp).events ∧
    (TransitionDb env msg s gp).world.balance msg.From =
      s.balance msg.From - ((msg.Gas * msg.GasPrice : Nat) : Int) ∧
    (TransitionDb env msg s gp).gp = gp - msg.Gas ∧
    (TransitionDb env msg s gp).usedGas = 0 := by
  rcases hq : preCheck msg (NewStateTransition msg) s gp with e | x
  · intro h
    simp only [TransitionDb, hq] at h
    simp at h
  · obtain ⟨st1, s1, gp1⟩ := x
    obtain ⟨h1, h2, h3, h4⟩ := preCheck_ok_fields msg _ s gp (st1, s1, gp1) hq
    simp only at h1 h2 h3
    subst h1
    subst h2
    subst h3
    by_cases hp : msg.isPrivateQuorum env.IsQuorum = true
    · simp only [TransitionDb, hq, hp, if_true]
      simp only [NewStateTransition, Nat.zero_add]
      rcases hr : env.receive msg.Data with u | dm
      · simp only [hr]
        intro h
        refine ⟨by simp, ?_, by first | rfl | trivial, by first | rfl | trivial⟩
        simp [WorldState.setNonce, WorldState.subBalance]
      · simp only [hr]
        split_ifs
        all_goals intro h
        all_goals first
          | (obtain ⟨ha, hb, hc, hd⟩ := execPhase_frame _ _ _ _ _ _ _ _ _ hcall hcreate
               (by simp) h
             refine ⟨ha, ?_, hc, hd⟩
             rw [hb]
             simp [WorldState.setNonce, WorldState.subBalance])
          | (refine ⟨by simp, ?_, by first | rfl | trivial, by first | rfl | trivial⟩
             first
               | simp [WorldState.setNonce, WorldState.subBalance]
               | (split_ifs <;> simp [WorldState.setNonce, WorldState.subBalance]))
    · have hp2 : msg.isPrivateQuorum env.IsQuorum = false := by
        cases hb : msg.isPrivateQuorum env.IsQuorum
        · rfl
        · exact absurd hb hp
      simp only [TransitionDb, hq, hp2, Bool.false_eq_true, if_false]
      simp only [NewStateTransition, Nat.zero_add]
      intro h
      obtain ⟨ha, hb, hc, hd⟩ := execPhase_frame _ _ _ _ _ _ _ _ _ hcall hcreate
        (by simp) h
      refine ⟨ha, ?_, hc, hd⟩
      rw [hb]
      simp [WorldState.subBalance]

/-- C10 witness: a concrete private run whose retrieval fails keeps the
full debit and reports zero used gas with no refund. -/
theorem C10_early_paths_frame_witness :
    Event.refundCall ∉ (TransitionDb envRecvErr msgPrivCall wWorld 1000000).events ∧
    (TransitionDb envRecvErr msgPrivCall wWorld 1000000).world.balance msgPrivCall.From =
      wWorld.balance msgPrivCall.From -
        ((msgPrivCall.Gas * msgPrivCall.GasPrice : Nat) : Int) ∧
    (TransitionDb envRecvErr msgPrivCall wWorld 1000000).gp = 1000000 - msgPrivCall.Gas ∧
    (TransitionDb envRecvErr msgPrivCall wWorld 1000000).usedGas = 0 :=
  C10_early_paths_frame envRecvErr msgPrivCall wWorld 1000000
    (fun _ _ _ _ _ _ h => nomatch h) (fun _ _ _ _ _ h => nomatch h)
    (Or.inl (by decide))

end Quorum
